import Mathlib

/-!
# Verification of the x64 emulator core (davidly/x64os)

Shallow embedding of the instruction-executor fragments of `src/x64.cxx` and
`src/x64.hxx` that the claims concern: the flag engine (`set_PSZ`,
`op_add`, `op_sub`), the shift/rotate primitives (`op_rol`, `op_ror`,
`op_rcl`, `op_rcr`, `op_sal`, `op_shr`, `op_sar`) and their dispatch arms
(opcodes 0xc0/0xc1/0xd3), the IMUL r,r/m arm (0x0f 0xaf), the FNSTSW ax arm,
the DIV r/m8 and DIV r/m64 arms, the SSE min/max helpers (`do_fmin`,
`do_fmax`), and the x87 80-bit load/store paths (`push_fp`, `pop_fp`,
`peek_fp`, FLD m80 / FSTP m80).

Machine integers of width w are modelled as `Nat` values reduced mod `2^w`.
Where C++ integer promotion changes the meaning of an expression for widths
below 32 bits, the embedding follows the C++ (promoted) meaning and says so
in a comment.
-/

namespace X64

/-- The arithmetic/status flags of `rflags` that the claims mention.  The
source keeps them as bits 0/2/4/6/7/11 of a 64-bit `rflags` word, accessed
only through `flag_c`/`setflag_c` etc. (x64.hxx lines 291-306); a record of
booleans is a faithful view of that API.  `ovf` is the overflow flag OF. -/
structure Flags where
  cf : Bool
  pf : Bool
  af : Bool
  zf : Bool
  sf : Bool
  ovf : Bool
deriving DecidableEq, Repr

/-- A fixed concrete flag state used by closed evaluation theorems. -/
def flags0 : Flags := ⟨false, false, false, false, false, false⟩

/-- `val_signed` (x64.hxx line 14): the top bit of a width-`w` value. -/
def val_signed (w : Nat) (x : Nat) : Bool := x.testBit (w - 1)

/-- `is_parity_even8` (x64.hxx line 401), portable branch: fold the byte by
xor and test the low bit. -/
def is_parity_even8 (x : Nat) : Bool :=
  let x := x % 256
  let x := x ^^^ (x >>> 4)
  let x := x ^^^ (x >>> 2)
  let x := x ^^^ (x >>> 1)
  !(x.testBit 0)

/-- `set_PSZ` (x64.hxx line 415): PF from the low byte, ZF from equality
with zero, SF from the top bit.  CF, AF and OF are untouched. -/
def set_PSZ (w : Nat) (val : Nat) (f : Flags) : Flags :=
  { f with pf := is_parity_even8 (val % 256),
           zf := decide (val = 0),
           sf := val_signed w val }

/-- The C++ expression `a + b` on two width-`w` unsigned operands: for
widths 8 and 16 the operands promote to `int` and the sum is exact; for
widths 32 and 64 the sum wraps mod `2^w` (x64.cxx line 2675). -/
def cxx_add_wrap (w a b : Nat) : Nat :=
  if w < 32 then a + b else (a + b) % 2 ^ w

/-- `op_add` (x64.cxx lines 2670-2679).  Returns the stored result and the
new flags.  `carry` is the ADC carry-in. -/
def op_add (w : Nat) (a b : Nat) (carry : Bool) (f : Flags) : Nat × Flags :=
  let cin := if carry then 1 else 0
  let result := (a + b + cin) % 2 ^ w
  let f := set_PSZ w result f
  -- setflag_c( ( result < a || result < b ) || ( result < ( a + b ) ) )
  let f := { f with cf := decide (result < a) || decide (result < b) ||
                          decide (result < cxx_add_wrap w a b) }
  -- setflag_o( ( ! val_signed( a ^ b ) ) && ( val_signed( a ^ result ) ) )
  let f := { f with ovf := !val_signed w (a ^^^ b) && val_signed w (a ^^^ result) }
  -- setflag_a( 0 != ( ( ( a & 0xf ) + ( b & 0xf ) + carry ) & 0x10 ) )
  let f := { f with af := (a % 16 + b % 16 + cin).testBit 4 }
  (result, f)

/-- The C++ expression `( a - b ) < borrow` inside `op_sub`'s carry
computation: for widths 8 and 16 the subtraction promotes to `int` and may
be negative; for widths 32 and 64 it wraps mod `2^w` (x64.cxx line 2658). -/
def cxx_sub_lt_borrow (w a b : Nat) (borrow : Nat) : Bool :=
  if w < 32 then decide ((a : Int) - b < borrow)
  else decide ((2 ^ w + a - b) % 2 ^ w < borrow)

/-- `op_sub` (x64.cxx lines 2653-2668).  Returns the stored result and the
new flags.  `borrow` is the SBB borrow-in. -/
def op_sub (w : Nat) (a b : Nat) (borrow : Bool) (f : Flags) : Nat × Flags :=
  let bin := if borrow then 1 else 0
  let result := (2 ^ w + 2 ^ w + a - b - bin) % 2 ^ w
  let f := set_PSZ w result f
  -- setflag_c( ( a < b ) || ( ( a - b ) < borrow ) )
  let f := { f with cf := decide (a < b) || cxx_sub_lt_borrow w a b bin }
  -- setflag_o( ( ( a_s ^ b_s ) < 0 ) && ( ( a_s ^ result_s ) < 0 ) )
  let f := { f with ovf := val_signed w (a ^^^ b) && val_signed w (a ^^^ result) }
  -- setflag_a( 0 != ( ( ( a & 0xf ) - ( b & 0xf ) - borrow ) & ~0xf ) ):
  -- the masked nibble subtraction is nonzero exactly when it goes negative.
  let f := { f with af := decide ((a % 16 : Int) - (b % 16 : Nat) - bin < 0) }
  (result, f)

/-- `top2bits` (x64.cxx line 2602): the top two bits of a width-`w` value. -/
def top2bits (w : Nat) (x : Nat) : Nat := 3 &&& (x >>> (w - 2))

/-- The loop body of `op_rol` (x64.cxx lines 2721-2742), iterated `n` times:
each step records the high bit in CF and rotates it into bit 0. -/
def rolLoop (w : Nat) : Nat → Nat → Bool → Nat × Bool
  | 0, val, cf => (val, cf)
  | n + 1, val, _ =>
      let highBit := val.testBit (w - 1)
      let val := (val <<< 1) % 2 ^ w
      let val := if highBit then val ||| 1 else val
      rolLoop w n val highBit

/-- `op_rol` (x64.cxx lines 2721-2742). -/
def op_rol (w : Nat) (x : Nat) (shift : Nat) (f : Flags) : Nat × Flags :=
  if shift = 0 then (x, f)
  else
    let (val, cf) := rolLoop w shift x f.cf
    let f := { f with cf := cf }
    let f := if shift = 1 then
               { f with ovf := val_signed w val != val_signed w x } else f
    (val, f)

/-- The loop body of `op_ror` (x64.cxx lines 2744-2761): each step records
bit 0 in CF, shifts right, and sets the high bit (`mk_signed`) when a 1 was
shifted out. -/
def rorLoop (w : Nat) : Nat → Nat → Bool → Nat × Bool
  | 0, val, cf => (val, cf)
  | n + 1, val, _ =>
      let lowBit := val.testBit 0
      let val := val >>> 1
      let val := if lowBit then val ||| 2 ^ (w - 1) else val
      rorLoop w n val lowBit

/-- `op_ror` (x64.cxx lines 2744-2761).  The final OF update xors the sign
bit with literal bit 6 of the result, whatever the width, as the source
does. -/
def op_ror (w : Nat) (x : Nat) (shift : Nat) (f : Flags) : Nat × Flags :=
  if shift = 0 then (x, f)
  else
    let (val, cf) := rorLoop w shift x f.cf
    let f := { f with cf := cf }
    let f := if shift = 1 then
               { f with ovf := val_signed w val != val.testBit 6 } else f
    (val, f)

/-- The loop body of `op_rcl` (x64.cxx lines 2763-2781): each step shifts
left, inserts the old CF at bit 0, and records the shifted-out high bit in
CF. -/
def rclLoop (w : Nat) : Nat → Nat → Bool → Nat × Bool
  | 0, val, cf => (val, cf)
  | n + 1, val, cf =>
      let newCarry := val.testBit (w - 1)
      let val := (val <<< 1) % 2 ^ w
      let val := if cf then val ||| 1 else val
      rclLoop w n val newCarry

/-- `op_rcl` (x64.cxx lines 2763-2781). -/
def op_rcl (w : Nat) (x : Nat) (shift : Nat) (f : Flags) : Nat × Flags :=
  if shift = 0 then (x, f)
  else
    let (val, cf) := rclLoop w shift x f.cf
    let f := { f with cf := cf }
    let f := if shift = 1 then
               { f with ovf := val_signed w val != f.cf } else f
    (val, f)

/-- The loop body of `op_rcr` (x64.cxx lines 2783-2801): each step records
bit 0 in CF and shifts right.  The source line `if ( flag_c() )
mk_signed( val );` discards the value `mk_signed` returns, so the incoming
carry is never written into the vacated high bit; the loop is a plain
logical right shift. -/
def rcrLoop : Nat → Nat → Bool → Nat × Bool
  | 0, val, cf => (val, cf)
  | n + 1, val, _ =>
      let newCarry := val.testBit 0
      let val := val >>> 1
      rcrLoop n val newCarry

/-- `op_rcr` (x64.cxx lines 2783-2801).  The OF update runs for every
nonzero shift (the source tests `if ( shift )`, not `if ( 1 == shift )`)
and xors the sign bit with literal bit 6 of the result. -/
def op_rcr (w : Nat) (x : Nat) (shift : Nat) (f : Flags) : Nat × Flags :=
  if shift = 0 then (x, f)
  else
    let (val, cf) := rcrLoop shift x f.cf
    let f := { f with cf := cf }
    let f := { f with ovf := val_signed w val != val.testBit 6 }
    (val, f)

/-- The loop body of `op_sal` (x64.cxx lines 2803-2817): each step records
the high bit in CF and shifts left. -/
def salLoop (w : Nat) : Nat → Nat → Bool → Nat × Bool
  | 0, val, cf => (val, cf)
  | n + 1, val, _ =>
      let cf := val.testBit (w - 1)
      salLoop w n ((val <<< 1) % 2 ^ w) cf

/-- `op_sal` aka SHL (x64.cxx lines 2803-2817).  Note there is no
zero-shift early return: `set_PSZ` runs even when `shift = 0`. -/
def op_sal (w : Nat) (x : Nat) (shift : Nat) (f : Flags) : Nat × Flags :=
  let f := if shift = 1 then { f with ovf := decide (top2bits w x = 3) } else f
  let (val, cf) := salLoop w shift x f.cf
  (val, set_PSZ w val { f with cf := cf })

/-- `op_shr` (x64.cxx lines 2819-2827).  The source never updates CF here,
and `set_PSZ` runs even when `shift = 0`. -/
def op_shr (w : Nat) (x : Nat) (shift : Nat) (f : Flags) : Nat × Flags :=
  let f := if shift = 1 then { f with ovf := val_signed w x } else f
  let val := x >>> shift
  (val, set_PSZ w val f)

/-- Arithmetic (sign-preserving) right shift of the width-`w` two's
complement encoding `x`: sign-extend `x` by `shift` extra bits, then shift
logically.  Dispatch always masks the count below `w`, so the C++ signed
shift `x >>= shift` is well defined. -/
def asr (w : Nat) (x : Nat) (shift : Nat) : Nat :=
  let xe := if x.testBit (w - 1) then x + (2 ^ (w + shift) - 2 ^ w) else x
  xe >>> shift

/-- `op_sar` (x64.cxx lines 2829-2838).  The source never updates CF here,
and `set_PSZ` runs even when `shift = 0`. -/
def op_sar (w : Nat) (x : Nat) (shift : Nat) (f : Flags) : Nat × Flags :=
  let f := if shift = 1 then { f with ovf := false } else f
  let val := asr w x shift
  (val, set_PSZ w val f)

/-- `op_shift` (x64.cxx lines 2840-2855): dispatch on the ModR/M `reg`
field over {ROL, ROR, RCL, RCR, SAL/SHL, SHR, —, SAR}.  Selector 6 calls
`unhandled()`, which invokes the termination hook; that is `none` here. -/
def op_shift (w : Nat) (operation : Nat) (x : Nat) (shift : Nat) (f : Flags) :
    Option (Nat × Flags) :=
  match operation with
  | 0 => some (op_rol w x shift f)
  | 1 => some (op_ror w x shift f)
  | 2 => some (op_rcl w x shift f)
  | 3 => some (op_rcr w x shift f)
  | 4 => some (op_sal w x shift f)
  | 5 => some (op_shr w x shift f)
  | 6 => none
  | 7 => some (op_sar w x shift f)
  | _ + 8 => none

/-- The operand width chosen by the 0xc1 / 0xd3 arms: REX.W selects 64,
else the 0x66 prefix selects 16, else 32 (x64.cxx lines 6397-6425 and
6486-6513). -/
def armWidth (rexW p66 : Bool) : Nat := if rexW then 64 else if p66 then 16 else 32

/-- The shift r8/m8, imm8 arm, opcode 0xc0 (x64.cxx lines 6386-6395): the
count byte is tested against zero raw, then masked with `shift &= 7`
before `op_shift` runs.  The result is the new 8-bit destination value and
flags, or `none` when `op_shift` hits the unhandled selector. -/
def shiftArm8 (operation : Nat) (x : Nat) (count : Nat) (f : Flags) :
    Option (Nat × Flags) :=
  let count := count % 256
  if count = 0 then some (x, f)
  else op_shift 8 operation x (count % 8) f

/-- The shift r/m, imm8 arm (opcode 0xc1, x64.cxx lines 6397-6425) and the
shift r/m, cl arm (opcode 0xd3, x64.cxx lines 6486-6513), which share the
same count handling: the raw count byte is tested against zero, then
masked with `&= 0x3f` (64-bit), `&= 0xf` (16-bit) or `&= 0x1f` (32-bit). -/
def shiftArm (rexW p66 : Bool) (operation : Nat) (x : Nat) (count : Nat)
    (f : Flags) : Option (Nat × Flags) :=
  let count := count % 256
  if count = 0 then some (x, f)
  else op_shift (armWidth rexW p66) operation x (count % armWidth rexW p66) f

/-- `sign_extend( x, high_bit )` widened to `outW` bits (x64.hxx lines
377-383): clear the bits above `high_bit`, then propagate bit `high_bit`
through the remaining bits of the `outW`-bit result. -/
def sign_extend (x : Nat) (highBit : Nat) (outW : Nat) : Nat :=
  let x := x % 2 ^ (highBit + 1)
  if x.testBit highBit then x + (2 ^ outW - 2 ^ (highBit + 1)) else x

/-- The signed interpretation of a width-`w` two's complement value. -/
def toSigned (w : Nat) (x : Nat) : Int :=
  if x.testBit (w - 1) then (x : Int) - 2 ^ w else (x : Int)

/-- The 16-bit path of the IMUL r, r/m arm, opcode 0x0f 0xaf under the
0x66 prefix (x64.cxx lines 5018-5028): the 16-bit operands are
sign-extended to 32 bits and multiplied; OF (and CF, copied from OF) is
`val_signed( result32 ) != val_signed( result16 )`, i.e. bit 31 of the
32-bit product against bit 15 of its truncation.  The destination write is
`regs[ _reg ].q = result16`: the full 64-bit register is overwritten with
the zero-extended 16-bit result.  Returns the new full 64-bit destination
value and the flags. -/
def imul_af_16 (regd : Nat) (rm16 : Nat) (f : Flags) : Nat × Flags :=
  let a := sign_extend regd 15 32
  let b := sign_extend rm16 15 32
  let result32 := a * b % 2 ^ 32
  let result16 := result32 % 2 ^ 16
  let f := { f with ovf := val_signed 32 result32 != val_signed 16 result16 }
  let f := { f with cf := f.ovf }
  (result16, f)

/-- The 32-bit path of the IMUL r, r/m arm (x64.cxx lines 5029-5038): the
operands are sign-extended to 64 bits, OF compares bit 63 of the 64-bit
product with bit 31 of its truncation, and the destination write is
`regs[ _reg ].q = result64` — the full 64-bit product, not the truncated
32-bit result. -/
def imul_af_32 (regd : Nat) (rm32 : Nat) (f : Flags) : Nat × Flags :=
  let a := sign_extend regd 31 64
  let b := sign_extend rm32 31 64
  let result64 := a * b % 2 ^ 64
  let result32 := result64 % 2 ^ 32
  let f := { f with ovf := val_signed 64 result64 != val_signed 32 result32 }
  let f := { f with cf := f.ovf }
  (result64, f)

/-- The FNSTSW ax arm, opcode 0xdf 0xe0 (x64.cxx lines 6908-6912):
`update_x87_status_top()` folds the stack pointer into bits 13..11 of the
16-bit status word (x64.hxx lines 799-804), then `regs[ rax ].q =
x87_fpu_status_word` overwrites the whole 64-bit rax with the zero-extended
status word.  Returns the new rax and the new status word. -/
def fnstsw_ax_arm (_rax sw sp : Nat) : Nat × Nat :=
  let sw' := ((sw % 2 ^ 16) &&& 0xc7ff ||| (sp <<< 11)) % 2 ^ 16
  -- regs[ rax ].q = x87_fpu_status_word: the prior rax is discarded whole.
  (sw', sw')

/-- Write the high byte `regs[ i ].h` of a 64-bit register value:
bits 15..8 are replaced, everything else is preserved. -/
def set_h (r : Nat) (v : Nat) : Nat :=
  r / 2 ^ 16 * 2 ^ 16 + v % 256 * 256 + r % 256

/-- The DIV r/m8 arm, opcode 0xf6 /6 (x64.cxx lines 7016-7030).  The
divisor is the zero-extended r/m byte; on zero the source's branch body is
only the comment `// trap here` — nothing happens and the instruction
completes, which the Bool (termination-hook-called) records as `false` on
every path.  Otherwise ax is divided: `regs[ rax ].q` is overwritten with
the byte quotient (clearing bits 63..8), then `regs[ rax ].h` receives the
remainder.  Returns the new rax and whether the termination hook ran. -/
def div8_arm (rax : Nat) (rm8 : Nat) : Nat × Bool :=
  let divisor := rm8 % 256
  if divisor = 0 then (rax, false)
  else
    let dividend := rax % 2 ^ 16
    let rax := dividend / divisor % 256
    let rax := set_h rax (dividend % divisor % 256)
    (rax, false)

/-- The DIV r/m64 arm, opcode 0xf7 /6 with REX.W (x64.cxx lines
7146-7170).  On a zero divisor the branch body is only the comment
`// trap here`: registers are untouched and no hook is called.  Modelled
from the spec for the nonzero branch: `divideUInt128ByUInt64` lives in a
header outside src/; per the spec, 64-bit DIV uses the 128-bit dividend in
`rdx:rax`, so quotient and remainder are those of the full 128-bit value,
stored through 64-bit outputs.  Returns (rax, rdx, hook-called). -/
def div64_arm (rax rdx divisor : Nat) : Nat × Nat × Bool :=
  let divisor := divisor % 2 ^ 64
  if divisor = 0 then (rax, rdx, false)
  else
    let dividend := rdx % 2 ^ 64 * 2 ^ 64 + rax % 2 ^ 64
    (dividend / divisor % 2 ^ 64, dividend % divisor % 2 ^ 64, false)

/-! ### IEEE value model for the SSE min/max helpers

An IEEE float or double is modelled by its class and content: a NaN with a
payload, a signed infinity, or a signed finite value with a nonnegative
rational magnitude (`fin neg 0` is a signed zero).  This carries exactly
the distinctions `do_fmin`/`do_fmax` test: IEEE equality with `0.0`,
`my_isnan`, and the ordering used by the min/max selection. -/

inductive FPV where
  | nan (payload : Nat)
  | inf (neg : Bool)
  | fin (neg : Bool) (mag : ℚ)
deriving DecidableEq, Repr

/-- `my_isnan` (x64.cxx line 38): classify as NaN. -/
def my_isnan : FPV → Bool
  | .nan _ => true
  | _ => false

/-- The C++ comparison `0.0 == a`: IEEE equality with zero is true exactly
for a zero of either sign, false for NaN and everything else. -/
def fp_eq_zero : FPV → Bool
  | .fin _ m => decide (m = 0)
  | _ => false

/-- The signed rational value of a finite `FPV`. -/
def fpval (neg : Bool) (m : ℚ) : ℚ := if neg then -m else m

/-- IEEE `a < b`: false whenever a NaN is involved, otherwise the usual
order with infinities at the ends and zeros of both signs equal. -/
def fplt : FPV → FPV → Bool
  | .nan _, _ => false
  | _, .nan _ => false
  | .inf true, .inf true => false
  | .inf true, _ => true
  | .inf false, _ => false
  | .fin _ _, .inf b => !b
  | .fin s m, .fin t n => decide (fpval s m < fpval t n)

/-- Modelled from the spec: `get_min` comes from `djl_os.hxx`, which is not
under src/; it returns the smaller operand (`a < b ? a : b`).  The claims
never reach it: `do_fmin`/`do_fmax` return early on every NaN or all-zero
input. -/
def get_min (a b : FPV) : FPV := if fplt a b then a else b

/-- Modelled from the spec: `get_max` comes from `djl_os.hxx`, which is not
under src/; it returns the larger operand (`a > b ? a : b`). -/
def get_max (a b : FPV) : FPV := if fplt b a then a else b

/-- `do_fmin` (x64.cxx lines 3258-3267): both zero → second operand; any
NaN → second operand; otherwise the minimum. -/
def do_fmin (a b : FPV) : FPV :=
  if fp_eq_zero a && fp_eq_zero b then b
  else if my_isnan a || my_isnan b then b
  else get_min a b

/-- `do_fmax` (x64.cxx lines 3269-3278): both zero → second operand; any
NaN → second operand; otherwise the maximum. -/
def do_fmax (a b : FPV) : FPV :=
  if fp_eq_zero a && fp_eq_zero b then b
  else if my_isnan a || my_isnan b then b
  else get_max a b

/-- The MINPD arm, opcode 0x0f 0x5d under 0x66 (x64.cxx lines 4253-4258):
each double lane of the destination is combined with the matching r/m lane,
destination lane first, r/m lane second.  MINSD is this on lane 0 alone. -/
def minpd_arm (dst rm : Fin 2 → FPV) : Fin 2 → FPV :=
  fun e => do_fmin (dst e) (rm e)

/-- The MINPS arm, opcode 0x0f 0x5d with no prefix (x64.cxx lines
4260-4264): four float lanes, destination lane first.  MINSS is lane 0. -/
def minps_arm (dst rm : Fin 4 → FPV) : Fin 4 → FPV :=
  fun e => do_fmin (dst e) (rm e)

/-- The MAXPD arm, opcode 0x0f 0x5f under 0x66 (x64.cxx lines 4293-4298). -/
def maxpd_arm (dst rm : Fin 2 → FPV) : Fin 2 → FPV :=
  fun e => do_fmax (dst e) (rm e)

/-- The MAXPS arm, opcode 0x0f 0x5f with no prefix (x64.cxx lines
4300-4304). -/
def maxps_arm (dst rm : Fin 4 → FPV) : Fin 4 → FPV :=
  fun e => do_fmax (dst e) (rm e)

/-! ### x87 80-bit register stack and the FLD/FSTP m80 arms

`float80_t` is a 10-byte union; FLD m80 and FSTP m80 move it with
`memcpy(..., 10)` and never convert (x64.cxx lines 6769-6781), so a slot is
modelled as the list of its 10 bytes.  Memory is the byte function an
address maps into; the bounds checks of `getmem` delegate invalid addresses
to the termination hook, so the claims below speak about valid addresses
only. -/

/-- `read_bytes`-style 10-byte little-endian read at address `a`. -/
def read10 (mem : Nat → Nat) (a : Nat) : List Nat :=
  (List.range 10).map fun i => mem (a + i)

/-- 10-byte write at address `a`. -/
def write10 (mem : Nat → Nat) (a : Nat) (bs : List Nat) : Nat → Nat :=
  fun p => if a ≤ p ∧ p < a + 10 then bs.getD (p - a) 0 else mem p

/-- The x87 state the m80 claims need: the 8-slot 80-bit register file
(`fregs`, an array modelled as a function) and the top-of-stack index
`fp_sp` (x64.hxx line 273, x64.cxx lines 2525-2556). -/
structure X87 where
  fregs : Nat → List Nat
  sp : Nat

/-- `push_fp` (x64.cxx lines 2525-2534): decrement the top index with
wraparound (`if 0 == fp_sp then 7 else fp_sp - 1`), then store into the new
top slot. -/
def push_fp (st : X87) (f80 : List Nat) : X87 :=
  let newsp := if st.sp = 0 then 7 else st.sp - 1
  { fregs := fun i => if i = newsp then f80 else st.fregs i, sp := newsp }

/-- `pop_fp` (x64.cxx lines 2543-2549): return the top slot and increment
the top index mod 8. -/
def pop_fp (st : X87) : List Nat × X87 :=
  (st.fregs st.sp, { st with sp := (st.sp + 1) % 8 })

/-- `peek_fp` (x64.cxx lines 2551-2556): read slot `(offset + fp_sp) % 8`. -/
def peek_fp (st : X87) (offset : Nat) : List Nat :=
  st.fregs ((offset + st.sp) % 8)

/-- The FLD m80 arm, opcode 0xdb /5 (x64.cxx lines 6769-6774): copy 10
bytes from memory into a `float80_t` and push it unchanged. -/
def fld80 (st : X87) (mem : Nat → Nat) (a : Nat) : X87 :=
  push_fp st (read10 mem a)

/-- The FSTP m80 arm, opcode 0xdb /7 (x64.cxx lines 6776-6781): pop the
top `float80_t` and copy its 10 bytes to memory. -/
def fstp80 (st : X87) (mem : Nat → Nat) (a : Nat) : X87 × (Nat → Nat) :=
  let (f80, st') := pop_fp st
  (st', write10 mem a f80)

/-! ## Supporting lemmas -/

/-- Mapping `getD` over the index range of a list rebuilds the list. -/
lemma map_range_getD (l : List Nat) :
    (List.range l.length).map (fun i => l.getD i 0) = l := by
  induction l with
  | nil => rfl
  | cons a t ih =>
      rw [List.length_cons, List.range_succ_eq_map, List.map_cons, List.map_map]
      have h1 : (fun i => (a :: t).getD i 0) ∘ Nat.succ = fun i => t.getD i 0 := by
        funext i
        simp
      rw [h1, ih, List.getD_cons_zero]

/-- Reading back 10 bytes just written returns them unchanged. -/
lemma read10_write10 (mem' : Nat → Nat) (b : Nat) (l : List Nat)
    (hl : l.length = 10) : read10 (write10 mem' b l) b = l := by
  have h : ∀ i ∈ List.range 10, write10 mem' b l (b + i) = l.getD i 0 := by
    intro i hi
    have hi' : i < 10 := List.mem_range.mp hi
    simp [write10, hi']
  calc read10 (write10 mem' b l) b
      = (List.range 10).map (fun i => write10 mem' b l (b + i)) := rfl
    _ = (List.range 10).map (fun i => l.getD i 0) := List.map_congr_left h
    _ = l := by rw [← hl, map_range_getD]

/-- The `rcrLoop` of `op_rcr` computes a plain logical right shift, and
leaves in CF the last bit shifted out (bit `n-1` of the input). -/
lemma rcrLoop_spec : ∀ (n x : Nat) (cf : Bool),
    rcrLoop n x cf = (x >>> n, if n = 0 then cf else x.testBit (n - 1)) := by
  intro n
  induction n with
  | zero => intro x cf; simp [rcrLoop]
  | succ m ih =>
      intro x cf
      simp only [rcrLoop]
      rw [ih]
      have h1 : x >>> 1 >>> m = x >>> (m + 1) := by
        rw [Nat.add_comm, Nat.shiftRight_add]
      have h2 : (if m = 0 then x.testBit 0 else (x >>> 1).testBit (m - 1)) =
          x.testBit m := by
        rcases Nat.eq_zero_or_pos m with hm | hm
        · subst hm; simp
        · rw [if_neg (Nat.pos_iff_ne_zero.mp hm), Nat.testBit_shiftRight]
          congr 1
          omega
      rw [h1, h2]
      simp

/-- `do_fmin` with a NaN operand returns the second operand. -/
lemma do_fmin_nan (a b : FPV) (h : (my_isnan a || my_isnan b) = true) :
    do_fmin a b = b := by
  simp [do_fmin, h]

/-- `do_fmax` with a NaN operand returns the second operand. -/
lemma do_fmax_nan (a b : FPV) (h : (my_isnan a || my_isnan b) = true) :
    do_fmax a b = b := by
  simp [do_fmax, h]

/-- `do_fmin` with two zero operands returns the second operand. -/
lemma do_fmin_zero (a b : FPV) (ha : fp_eq_zero a = true)
    (hb : fp_eq_zero b = true) : do_fmin a b = b := by
  simp [do_fmin, ha, hb]

/-- `do_fmax` with two zero operands returns the second operand. -/
lemma do_fmax_zero (a b : FPV) (ha : fp_eq_zero a = true)
    (hb : fp_eq_zero b = true) : do_fmax a b = b := by
  simp [do_fmax, ha, hb]

/-! ## Claim theorems -/

/-- C1: the claim says every DIV/IDIV with a zero divisor invokes the
termination hook and never completes silently.  The code does the
opposite: each zero-divisor branch contains only the comment `// trap
here` (x64.cxx lines 7019-7022, 7148-7151, and the parallel 16/32-bit and
IDIV arms), so the instruction completes with registers unchanged, no hook
is called, and execution continues.  This theorem evaluates the DIV r/m8
and DIV r/m64 arms at a zero divisor: the register state is returned
unchanged and the hook-called component is `false`. -/
theorem claim_C1_div_zero_completes_silently :
    div8_arm 0x1234 0 = (0x1234, false) ∧ div64_arm 5 7 0 = (5, 7, false) := by
  decide

/-- C2: the claim says CF after ADD/ADC equals the unsigned carry-out of
the full sum including the carry-in.  The code's test
`( result < a || result < b ) || ( result < ( a + b ) )` misses the case
`a = b = 2^w - 1`, `carry_in = 1` at widths 32 and 64, where `a + b` wraps:
the sum `0x1FFFFFFFF ≥ 2^32` carries out, but the code computes CF = 0
(while the stored result, `0xFFFFFFFF`, is correct). -/
theorem claim_C2_adc_carry_out_missed :
    (op_add 32 0xFFFFFFFF 0xFFFFFFFF true flags0).2.cf = false ∧
    2 ^ 32 ≤ 0xFFFFFFFF + 0xFFFFFFFF + 1 ∧
    (op_add 32 0xFFFFFFFF 0xFFFFFFFF true flags0).1 = 0xFFFFFFFF := by
  decide

/-- C3: the claim says every 16-bit destination write preserves the bits
outside the written field.  The FNSTSW ax arm (x64.cxx line 6911) writes
`regs[ rax ].q = x87_fpu_status_word`, overwriting all 64 bits of rax with
the zero-extended 16-bit status word: starting from
rax = 0xFFFFFFFFFFFF0000 with a zero status word and top index 0, rax
becomes 0, so bits 63..16 (which the claim requires to read
0xFFFFFFFFFFFF) are cleared. -/
theorem claim_C3_fnstsw_clobbers_rax :
    (fnstsw_ax_arm 0xFFFFFFFFFFFF0000 0 0).1 = 0 ∧
    (0xFFFFFFFFFFFF0000 : Nat) / 2 ^ 16 = 0xFFFFFFFFFFFF ∧
    (0 : Nat) / 2 ^ 16 ≠ 0xFFFFFFFFFFFF := by
  decide

/-- C4 counterexample: the claim says a shift whose count masks to zero
leaves every flag unchanged.  `SHL rax, cl` with rax = 1 and cl = 64 masks
the count to 0, yet with a prior flag state whose only set flag is ZF the
result flag state is `flags0` (all clear): the zero-shift `op_sal` path
still runs `set_PSZ`, recomputing PF, ZF, SF from the unchanged operand
and dropping the prior ZF. -/
theorem claim_C4_counterexample :
    shiftArm true false 4 1 64 { flags0 with zf := true } = some (1, flags0) ∧
    ({ flags0 with zf := true } : Flags).zf ≠ flags0.zf := by
  decide

/-- C4 amended: a shift or rotate whose raw count byte is zero changes
nothing; when the count becomes zero only after masking, the destination
is unchanged and CF, AF, OF keep their prior values — the rotates
(ROL/ROR/RCL/RCR, selectors 0-3) preserve all flags, while SHL/SHR/SAR
(selectors 4, 5, 7) recompute PF, ZF, SF from the unchanged operand via
`set_PSZ`. -/
theorem claim_C4_amended :
    ∀ (rexW p66 : Bool) (operation x c : Nat) (f : Flags),
      (c % 256 = 0 →
        shiftArm rexW p66 operation x c f = some (x, f) ∧
        shiftArm8 operation x c f = some (x, f)) ∧
      (c % 256 ≠ 0 → c % armWidth rexW p66 = 0 → operation < 4 →
        shiftArm rexW p66 operation x c f = some (x, f)) ∧
      (c % 256 ≠ 0 → c % armWidth rexW p66 = 0 →
        (operation = 4 ∨ operation = 5 ∨ operation = 7) →
        shiftArm rexW p66 operation x c f =
          some (x, set_PSZ (armWidth rexW p66) x f)) ∧
      (c % 256 ≠ 0 → c % 8 = 0 → operation < 4 →
        shiftArm8 operation x c f = some (x, f)) ∧
      (c % 256 ≠ 0 → c % 8 = 0 →
        (operation = 4 ∨ operation = 5 ∨ operation = 7) →
        shiftArm8 operation x c f = some (x, set_PSZ 8 x f)) := by
  intro rexW p66 operation x c f
  have hdvd : armWidth rexW p66 ∣ 256 := by
    cases rexW <;> cases p66 <;> decide
  have hmod : c % 256 % armWidth rexW p66 = c % armWidth rexW p66 :=
    Nat.mod_mod_of_dvd c hdvd
  have hmod8 : c % 256 % 8 = c % 8 := Nat.mod_mod_of_dvd c (by decide)
  refine ⟨?_, ?_, ?_, ?_, ?_⟩
  · intro hc
    constructor <;> simp [shiftArm, shiftArm8, hc]
  · intro hc hm hop
    simp only [shiftArm, if_neg hc, hmod, hm]
    interval_cases operation <;>
      simp [op_shift, op_rol, op_ror, op_rcl, op_rcr]
  · intro hc hm hop
    simp only [shiftArm, if_neg hc, hmod, hm]
    rcases hop with h | h | h <;> subst h <;>
      simp [op_shift, op_sal, salLoop, op_shr, op_sar, asr]
  · intro hc hm hop
    simp only [shiftArm8, if_neg hc, hmod8, hm]
    interval_cases operation <;>
      simp [op_shift, op_rol, op_ror, op_rcl, op_rcr]
  · intro hc hm hop
    simp only [shiftArm8, if_neg hc, hmod8, hm]
    rcases hop with h | h | h <;> subst h <;>
      simp [op_shift, op_sal, salLoop, op_shr, op_sar, asr]

/-- C4 witness: the amended theorem applied at SHL, 64-bit operand 1,
count 64 (masks to zero): value unchanged and flags rewritten by
`set_PSZ`. -/
theorem claim_C4_amended_witness :
    shiftArm true false 4 1 64 flags0 = some (1, set_PSZ 64 1 flags0) :=
  (claim_C4_amended true false 4 1 64 flags0).2.2.1 (by decide) (by decide)
    (Or.inl rfl)

/-- C5 counterexample: the claim says 8-bit shift counts are masked to 5
bits, so an 8-bit operand with count 9 would be shifted by 9 and become 0.
The 0xc0 arm masks with `shift &= 7` (x64.cxx line 6391): value 1 shifted
with count 9 is shifted by 1 and becomes 2, not 0. -/
theorem claim_C5_counterexample :
    shiftArm8 4 1 9 flags0 = some (2, flags0) ∧
    1 <<< (9 % 32) % 2 ^ 8 = 0 ∧ (2 : Nat) ≠ 0 := by
  decide

/-- C5 amended: shift and rotate counts are masked to the operand's width
— 3 bits for 8-bit, 4 bits for 16-bit, 5 bits for 32-bit and 6 bits for
64-bit operands — so two nonzero count bytes that agree modulo the operand
width produce identical results. -/
theorem claim_C5_amended :
    ∀ (operation x c1 c2 : Nat) (f : Flags),
      c1 % 256 ≠ 0 → c2 % 256 ≠ 0 →
      (c1 % 8 = c2 % 8 →
        shiftArm8 operation x c1 f = shiftArm8 operation x c2 f) ∧
      ∀ rexW p66 : Bool,
        c1 % armWidth rexW p66 = c2 % armWidth rexW p66 →
          shiftArm rexW p66 operation x c1 f =
            shiftArm rexW p66 operation x c2 f := by
  intro operation x c1 c2 f h1 h2
  constructor
  · intro h
    have e1 : c1 % 256 % 8 = c2 % 256 % 8 := by
      rw [Nat.mod_mod_of_dvd c1 (by decide), Nat.mod_mod_of_dvd c2 (by decide), h]
    simp only [shiftArm8, if_neg h1, if_neg h2, e1]
  · intro rexW p66 h
    have hdvd : armWidth rexW p66 ∣ 256 := by
      cases rexW <;> cases p66 <;> decide
    have e1 : c1 % 256 % armWidth rexW p66 = c2 % 256 % armWidth rexW p66 := by
      rw [Nat.mod_mod_of_dvd c1 hdvd, Nat.mod_mod_of_dvd c2 hdvd, h]
    simp only [shiftArm, if_neg h1, if_neg h2, e1]

/-- C5 witness: the amended theorem applied at SHL of the 8-bit value 1:
count 9 behaves exactly like count 1. -/
theorem claim_C5_amended_witness :
    shiftArm8 4 1 9 flags0 = shiftArm8 4 1 1 flags0 :=
  (claim_C5_amended 4 1 9 1 flags0 (by decide) (by decide)).1 (by decide)

/-- C6: the claim says SHR and SAR set CF to the last bit shifted out.
`op_shr` and `op_sar` (x64.cxx lines 2819-2838) never touch CF: shifting
the value 1 (or 3) right by 1 shifts out a 1 bit, yet CF stays at its
prior value — false when it was false, true when it was true. -/
theorem claim_C6_shr_sar_never_set_cf :
    (op_shr 8 1 1 flags0).2.cf = false ∧ Nat.testBit 1 0 = true ∧
    (op_sar 8 3 1 flags0).2.cf = false ∧ Nat.testBit 3 0 = true ∧
    (op_shr 8 1 1 { flags0 with cf := true }).2.cf = true := by
  decide

/-- C7: the claim says CF = OF = 1 exactly when the full signed product
does not fit the destination width.  The 16-bit IMUL r, r/m arm compares
only bit 31 of the 32-bit product with bit 15 of its truncation (x64.cxx
lines 5022-5023): for 512 × 256 the product 131072 = 0x20000 has both bits
clear, so the code leaves CF = OF = 0 although 131072 ≥ 2^15 cannot be
represented in 16 signed bits. -/
theorem claim_C7_imul_overflow_missed :
    (imul_af_16 512 256 flags0).2.cf = false ∧
    (imul_af_16 512 256 flags0).2.ovf = false ∧
    (512 * 256 : Nat) = 131072 ∧ ¬ (131072 : Nat) < 2 ^ 15 := by
  decide

/-- C8: in every computed lane of the MIN/MAX families, a NaN in either
operand makes the result the second (r/m) source lane, and two zero
operands (of any sign combination) likewise give the second source lane;
stated for the scalar helpers `do_fmin`/`do_fmax` and for the packed
double and float lane maps. -/
theorem claim_C8_minmax_nan_and_zero :
    ∀ (a b : FPV) (d2 r2 : Fin 2 → FPV) (d4 r4 : Fin 4 → FPV)
      (e2 : Fin 2) (e4 : Fin 4),
      ((my_isnan a || my_isnan b) = true →
        do_fmin a b = b ∧ do_fmax a b = b) ∧
      (fp_eq_zero a = true → fp_eq_zero b = true →
        do_fmin a b = b ∧ do_fmax a b = b) ∧
      ((my_isnan (d2 e2) || my_isnan (r2 e2)) = true →
        minpd_arm d2 r2 e2 = r2 e2 ∧ maxpd_arm d2 r2 e2 = r2 e2) ∧
      ((my_isnan (d4 e4) || my_isnan (r4 e4)) = true →
        minps_arm d4 r4 e4 = r4 e4 ∧ maxps_arm d4 r4 e4 = r4 e4) ∧
      (fp_eq_zero (d2 e2) = true → fp_eq_zero (r2 e2) = true →
        minpd_arm d2 r2 e2 = r2 e2 ∧ maxpd_arm d2 r2 e2 = r2 e2) ∧
      (fp_eq_zero (d4 e4) = true → fp_eq_zero (r4 e4) = true →
        minps_arm d4 r4 e4 = r4 e4 ∧ maxps_arm d4 r4 e4 = r4 e4) := by
  intro a b d2 r2 d4 r4 e2 e4
  refine ⟨fun h => ⟨do_fmin_nan a b h, do_fmax_nan a b h⟩,
          fun ha hb => ⟨do_fmin_zero a b ha hb, do_fmax_zero a b ha hb⟩,
          fun h => ⟨do_fmin_nan _ _ h, do_fmax_nan _ _ h⟩,
          fun h => ⟨do_fmin_nan _ _ h, do_fmax_nan _ _ h⟩,
          fun ha hb => ⟨do_fmin_zero _ _ ha hb, do_fmax_zero _ _ ha hb⟩,
          fun ha hb => ⟨do_fmin_zero _ _ ha hb, do_fmax_zero _ _ ha hb⟩⟩

/-- C8 witness: MINSD/MAXSD with a NaN first operand return the second
operand, and MINPD lanes of -0 against +0 return the second source's +0. -/
theorem claim_C8_witness :
    (do_fmin (FPV.nan 0) (FPV.fin false 2) = FPV.fin false 2 ∧
      do_fmax (FPV.nan 0) (FPV.fin false 2) = FPV.fin false 2) ∧
    minpd_arm (fun _ => FPV.fin true 0) (fun _ => FPV.fin false 0) 0 =
        FPV.fin false 0 ∧
    maxpd_arm (fun _ => FPV.fin true 0) (fun _ => FPV.fin false 0) 0 =
        FPV.fin false 0 :=
  ⟨(claim_C8_minmax_nan_and_zero (FPV.nan 0) (FPV.fin false 2)
      (fun _ => FPV.fin true 0) (fun _ => FPV.fin false 0)
      (fun _ => FPV.fin true 0) (fun _ => FPV.fin false 0) 0 0).1 (by decide),
   (claim_C8_minmax_nan_and_zero (FPV.nan 0) (FPV.fin false 2)
      (fun _ => FPV.fin true 0) (fun _ => FPV.fin false 0)
      (fun _ => FPV.fin true 0) (fun _ => FPV.fin false 0) 0 0).2.2.2.2.1
      (by decide) (by decide)⟩

/-- C9: FLD m80 at address `a`, FSTP m80 to address `b`, then FLD m80 from
`b` leaves in the top x87 stack slot exactly the 10 bytes originally read
at `a`: the 80-bit pattern survives bit-for-bit, whatever it encodes. -/
theorem claim_C9_fld_fstp_fld_roundtrip :
    ∀ (st : X87) (mem : Nat → Nat) (a b : Nat), st.sp < 8 →
      peek_fp
        (fld80 (fstp80 (fld80 st mem a) mem b).1
               (fstp80 (fld80 st mem a) mem b).2 b) 0
        = read10 mem a := by
  intro st mem a b hsp
  have hlen : (read10 mem a).length = 10 := by simp [read10]
  obtain ⟨fr, sp⟩ := st
  simp only [X87.sp] at hsp
  interval_cases sp <;>
    simp [fld80, fstp80, pop_fp, push_fp, peek_fp, read10_write10 _ _ _ hlen]

/-- C9 witness: the round-trip theorem applied to the all-zero machine at
addresses 0. -/
theorem claim_C9_witness :
    peek_fp
      (fld80 (fstp80 (fld80 ⟨fun _ => [], 0⟩ (fun _ => 0) 0) (fun _ => 0) 0).1
             (fstp80 (fld80 ⟨fun _ => [], 0⟩ (fun _ => 0) 0) (fun _ => 0) 0).2 0) 0
      = read10 (fun _ => 0) 0 :=
  claim_C9_fld_fstp_fld_roundtrip ⟨fun _ => [], 0⟩ (fun _ => 0) 0 0 (by decide)

/-- C10: for every width and nonzero count `n`, `op_rcr` stores the plain
logical right shift of the operand by `n` — the incoming carry flag (and
every intermediate CF) is never inserted into a vacated bit, because the
source discards the value `mk_signed` returns — and the final CF is bit
`n-1` of the original operand. -/
theorem claim_C10_rcr_is_plain_shift :
    ∀ (w x n : Nat) (f : Flags), 0 < n →
      (op_rcr w x n f).1 = x >>> n ∧
      (op_rcr w x n f).2.cf = x.testBit (n - 1) := by
  intro w x n f hn
  have hn' : n ≠ 0 := Nat.pos_iff_ne_zero.mp hn
  simp only [op_rcr, if_neg hn', rcrLoop_spec, hn']
  simp

/-- C10 witness: RCR of 5 by 2 at width 8 yields 1 with CF = bit 1 of 5 =
false, independent of the incoming carry. -/
theorem claim_C10_witness :
    (op_rcr 8 5 2 flags0).1 = 5 >>> 2 ∧
    (op_rcr 8 5 2 flags0).2.cf = Nat.testBit 5 1 :=
  claim_C10_rcr_is_plain_shift 8 5 2 flags0 (by decide)

end X64
